import Mathlib

/-!
Verification of the poem harvesting and shortlisting pipeline
(scrape_poems.py, shortlist_poems.py, 3-build_band_mods.py).

Text is modelled as `List Char` (`Str`), so that every operation is a
structurally recursive, kernel-evaluable function.  Whitespace is the
ASCII whitespace recognised by `Char.isWhitespace`; the concrete inputs
used in the theorems below are plain ASCII, where Python's `\s` and
`str.strip` agree with this model.
-/

namespace Glyphica

/-- Text as a list of characters. -/
abbrev Str := List Char

/-- Python `str.lstrip()` (drop leading whitespace). -/
def lstripWs : Str → Str
  | [] => []
  | c :: s => if c.isWhitespace then lstripWs s else c :: s

/-- Python `str.rstrip()` (drop trailing whitespace). -/
def rstripWs (s : Str) : Str := (lstripWs s.reverse).reverse

/-- Python `str.strip()`. -/
def strip (s : Str) : Str := rstripWs (lstripWs s)

/-- Split into maximal whitespace-free tokens (the pieces `\s+` separates). -/
def wsTokensAux : Str → Str → List Str
  | [], acc => if acc = [] then [] else [acc.reverse]
  | c :: s, acc =>
    if c.isWhitespace then
      if acc = [] then wsTokensAux s [] else acc.reverse :: wsTokensAux s []
    else wsTokensAux s (c :: acc)

/-- The whitespace-separated tokens of a string. -/
def wsTokens (s : Str) : List Str := wsTokensAux s []

/-- Join a list of strings with single spaces (Python `" ".join`). -/
def joinSpace (ls : List Str) : Str := List.intercalate [' '] ls

/-- Python `re.sub(r"\s+", " ", s).strip()`: collapse every whitespace run
to one space and strip the ends. -/
def collapseWs (s : Str) : Str := joinSpace (wsTokens s)

/-- Split on newline characters, keeping empty pieces. -/
def splitNlAux : Str → Str → List Str
  | [], acc => [acc.reverse]
  | c :: s, acc =>
    if c = '\n' then acc.reverse :: splitNlAux s [] else splitNlAux s (c :: acc)

/-- Python `str.splitlines()` for texts whose only line separator is `\n`:
split on newlines, with no empty piece after a terminal newline. -/
def pySplitlines (s : Str) : List Str :=
  let ps := splitNlAux s []
  if ps.getLast? = some [] then ps.dropLast else ps

/-- Lowercase every character (Python's case-insensitive comparisons). -/
def lowerStr (s : Str) : Str := s.map Char.toLower

/-- Whether `pat` occurs as a contiguous substring (Python `pat in s`). -/
def containsSub (pat s : Str) : Bool := s.tails.any fun t => pat.isPrefixOf t

/-- Whether `s` starts with `pat` (Python `str.startswith`). -/
def strStarts (pat s : Str) : Bool := pat.isPrefixOf s

/-- Python `max(xs, key=f)`: the first element attaining the maximal key
(`>` replacement in the running fold keeps the earliest maximum). -/
def pyMaxBy {α : Type} (f : α → ℕ) : List α → Option α
  | [] => none
  | a :: l => some (l.foldl (fun best x => if f best < f x then x else best) a)

/-- Python `str.isdigit()` for ASCII text: non-empty and all digits. -/
def pyIsDigit (s : Str) : Bool := !s.isEmpty && s.all Char.isDigit

/-- Numeric value of a digit string (Python `int(s)` on an `isdigit` string). -/
def digitsToNat (s : Str) : ℕ := s.foldl (fun n c => 10 * n + (c.toNat - 48)) 0

/-! ## Poem Text Extractor of the Difficulty Classifier
(`shortlist_poems.extract_poem_text`).

Both extractors receive the document as the list of the raw texts of its
table cells, in document order: in the source both iterate
`soup.find_all("td")` and read `td.get_text("\n", strip=True)`, so the
HTML-to-cell-text step is common to the two and is the extractors' input
here. -/

/-- Literal marker "Main Menu". -/
def mainMenuMarker : Str := "Main Menu".data

/-- Literal marker "Sponsored Links". -/
def sponsoredMarker : Str := "Sponsored Links".data

/-- The filter of `shortlist_poems.extract_poem_text` (lines 120-126):
keep a cell text iff its length is at least 250 and it contains neither
marker.  There is no minimum line count in this version. -/
def shortlistKeep (t : Str) : Bool :=
  250 ≤ t.length && !containsSub mainMenuMarker t && !containsSub sponsoredMarker t

/-- The leading-text drops of `shortlist_poems.extract_poem_text`
(lines 134-144): a line is discarded iff it starts with one of the four
literal markers. -/
def shortlistDropLine (l : Str) : Bool :=
  strStarts "Public Domain Poetry".data l || strStarts "By ".data l ||
    strStarts "Read, rate".data l || strStarts "Main Menu".data l

/-- `shortlist_poems.extract_poem_text` (lines 117-146): filter the cell
texts, take the first longest one, split it into stripped non-blank lines,
drop the marker-led lines, and join the rest with single spaces. -/
def extractPoemTextShortlist (tds : List Str) : Str :=
  let candidates := tds.filter shortlistKeep
  match pyMaxBy List.length candidates with
  | none => []
  | some best =>
    let lines := ((pySplitlines best).map strip).filter (fun l => l ≠ [])
    joinSpace (lines.filter fun l => !shortlistDropLine l)

/-! ## Poem Text Extractor of the band builder
(`3-build_band_mods.extract_poem_text`). -/

/-- The stripped non-blank lines of a cell text
(`[line.strip() for line in raw_text.splitlines() if line.strip()]`). -/
def nbLines (t : Str) : List Str :=
  ((pySplitlines t).map strip).filter (fun l => l ≠ [])

/-- Primary pass of `3-build_band_mods.extract_poem_text` (lines 57-66):
keep the line lists of the cells whose raw length is at least 250, that
contain neither marker, and that have at least 6 non-blank lines. -/
def primaryBlocks (tds : List Str) : List (List Str) :=
  tds.filterMap fun t =>
    if 250 ≤ t.length && !containsSub mainMenuMarker t && !containsSub sponsoredMarker t then
      let ls := nbLines t
      if 6 ≤ ls.length then some ls else none
    else none

/-- Fallback pass of `3-build_band_mods.extract_poem_text` (lines 68-75):
keep the line lists of the cells whose raw length is at least 180 and that
have at least 6 non-blank lines.  The source performs no marker check in
this pass. -/
def fallbackBlocks (tds : List Str) : List (List Str) :=
  tds.filterMap fun t =>
    if 180 ≤ t.length then
      let ls := nbLines t
      if 6 ≤ ls.length then some ls else none
    else none

/-- Block selection of `3-build_band_mods.extract_poem_text`: the primary
pass, or the fallback pass when the primary pass yields nothing. -/
def selectBlocks (tds : List Str) : List (List Str) :=
  let p := primaryBlocks tds
  if p.isEmpty then fallbackBlocks tds else p

/-- Byline test `re.match(r"^By\s+", text, re.IGNORECASE)` on a
whitespace-collapsed line: the line starts, case-insensitively, with
`By` followed by a space. -/
def bylineTest (text : Str) : Bool := strStarts "by ".data (lowerStr text)

/-- `3-build_band_mods.clean_poem_lines`: per line, collapse whitespace,
drop blanks, drop the first line equal (case-insensitively) to the
collapsed title, drop the first byline, and drop every line containing
"Sponsored Links" or starting with "Public Domain Poetry". -/
def cleanPoemLinesAux (normalizedTitle : Str) :
    List Str → Bool → Bool → List Str
  | [], _, _ => []
  | l :: rest, droppedTitle, droppedByline =>
    let text := collapseWs l
    if text = [] then cleanPoemLinesAux normalizedTitle rest droppedTitle droppedByline
    else if !droppedTitle && lowerStr text = normalizedTitle then
      cleanPoemLinesAux normalizedTitle rest true droppedByline
    else if !droppedByline && bylineTest text then
      cleanPoemLinesAux normalizedTitle rest droppedTitle true
    else if containsSub sponsoredMarker text || strStarts "Public Domain Poetry".data text then
      cleanPoemLinesAux normalizedTitle rest droppedTitle droppedByline
    else text :: cleanPoemLinesAux normalizedTitle rest droppedTitle droppedByline

/-- `3-build_band_mods.clean_poem_lines` (lines 25-50). -/
def cleanPoemLines (lines : List Str) (title : Str) : List Str :=
  cleanPoemLinesAux (lowerStr (collapseWs title)) lines false false

/-- Index of the first occurrence of `pat` as a substring, if any. -/
def findSubIdx (pat : Str) : Str → Option ℕ
  | [] => if pat = [] then some 0 else none
  | c :: rest =>
    if pat.isPrefixOf (c :: rest) then some 0
    else (findSubIdx pat rest).map (· + 1)

/-- `re.sub(r"\s*Extra\s+Info:.*$", "", text, re.IGNORECASE)` on a
single-space-collapsed text (the joined cleaned lines contain no other
whitespace, so `\s+` can only match one space): cut at the first
case-insensitive occurrence of "extra info:" and right-strip the cut. -/
def stripExtraInfo (text : Str) : Str :=
  match findSubIdx "extra info:".data (lowerStr text) with
  | none => text
  | some i => rstripWs (text.take i)

/-- Tail test for the viewed-counter suffix: one or more digits, then
" times" with an optional final period, at the end of the string. -/
def printableTailOk (s : Str) : Bool :=
  let ds := s.takeWhile Char.isDigit
  let rest := s.drop ds.length
  !ds.isEmpty && (rest = " times".data || rest = " times.".data)

/-- Position of the leftmost match of the viewed-counter pattern
`Printable\s+Page\s+This\s+page\s+viewed\s+\d+\s+times\.?$` in a
single-space-collapsed lowercase text. -/
def findPrintableIdx : Str → Option ℕ
  | [] => none
  | c :: rest =>
    let pat := "printable page this page viewed ".data
    if pat.isPrefixOf (c :: rest) && printableTailOk ((c :: rest).drop pat.length) then
      some 0
    else (findPrintableIdx rest).map (· + 1)

/-- `re.sub(r"\s*Printable\s+Page\s+This\s+page\s+viewed\s+\d+\s+times\.?$",
"", text, re.IGNORECASE)` on a single-space-collapsed text. -/
def stripPrintable (text : Str) : Str :=
  match findPrintableIdx (lowerStr text) with
  | none => text
  | some i => rstripWs (text.take i)

/-- Length of the leading whitespace run (`\s*`). -/
def wsStarLen (s : Str) : ℕ := (s.takeWhile Char.isWhitespace).length

/-- Length of the leading whitespace run when non-empty (`\s+`). -/
def wsPlusLen (s : Str) : Option ℕ :=
  let n := wsStarLen s
  if n = 0 then none else some n

/-- A character matched by the name-token class after its head. -/
def tokCh (c : Char) : Bool :=
  c.isAlphanum || c = '_' || c = Char.ofNat 39 || c = '.' || c = '-'

/-- Greedy length of a name token (a letter, then token characters). -/
def tokLen : Str → Option ℕ
  | [] => none
  | c :: rest => if c.isAlpha then some (1 + (rest.takeWhile tokCh).length) else none

/-- Length of a parenthetical group: an opening parenthesis, at least
one character that is not a closing parenthesis, then a closing one. -/
def parenLen : Str → Option ℕ
  | [] => none
  | c :: rest =>
    if c = '(' then
      let content := rest.takeWhile (fun d => d ≠ ')')
      if !content.isEmpty && content.length < rest.length then
        some (content.length + 2)
      else none
    else none

/-- First defined value in a list of options, in order. -/
def firstSome {α : Type} : List (Option α) → Option α
  | [] => none
  | o :: l => match o with | some a => some a | none => firstSome l

/-- Consumption options for one starred group iteration — whitespace,
a name token, optionally a parenthetical — longest (with parenthetical)
first, as the greedy optional group demands. -/
def iterOptions (s : Str) : List ℕ :=
  match wsPlusLen s with
  | none => []
  | some w =>
    match tokLen (s.drop w) with
    | none => []
    | some t =>
      let base := w + t
      let rest := s.drop base
      let ws2 := wsStarLen rest
      let withParen := firstSome <| (List.range (ws2 + 1)).reverse.map fun k =>
        (parenLen (rest.drop k)).map fun p => base + k + p
      match withParen with
      | some n => [n, base]
      | none => [base]

/-- Backtracking matcher for the pattern tail: zero or more further
name-token groups, then mandatory trailing whitespace.  Greedy: more
iterations are tried before fewer; the fuel bounds the recursion (each
iteration consumes at least one character). -/
def matchStarTail : ℕ → Str → Option ℕ
  | 0, _ => none
  | fuel + 1, s =>
    match firstSome ((iterOptions s).map fun n =>
        (matchStarTail fuel (s.drop n)).map (n + ·)) with
    | some m => some m
    | none => wsPlusLen s

/-- Length of the leftmost anchored match of the inline header pattern
of `3-build_band_mods.extract_poem_text` (lines 87-93):
leading whitespace, the collapsed title (literally, case-insensitively),
whitespace, `By`, whitespace, a capitalized name token, further tokens
with optional parentheticals, and trailing whitespace.  On a collapsed
single-space text this is the match length of the source regex. -/
def titleBylineMatchLen (title text : Str) : Option ℕ :=
  let tpat := lowerStr (collapseWs title)
  let low := lowerStr text
  let w0 := wsStarLen low
  if tpat.isPrefixOf (low.drop w0) then
    let p1 := w0 + tpat.length
    match wsPlusLen (low.drop p1) with
    | none => none
    | some w1 =>
      if "by".data.isPrefixOf (low.drop (p1 + w1)) then
        let p2 := p1 + w1 + 2
        match wsPlusLen (low.drop p2) with
        | none => none
        | some w2 =>
          match tokLen (low.drop (p2 + w2)) with
          | none => none
          | some t1 =>
            let p3 := p2 + w2 + t1
            (matchStarTail (low.length + 1) (low.drop p3)).map (p3 + ·)
      else none
  else none

/-- The title-plus-byline header removal (`re.sub` of the pattern above
with the empty string): drop the matched span if the pattern matches. -/
def dropTitleByline (title text : Str) : Str :=
  match titleBylineMatchLen title text with
  | none => text
  | some n => text.drop n

/-- `3-build_band_mods.extract_poem_text` (lines 53-97): select blocks in
two passes, take the first block with the greatest total line length,
clean its lines, join with spaces, strip the two trailer patterns, strip
the inline title-byline header when a title was given, and collapse
whitespace. -/
def extractPoemTextBands (tds : List Str) (title : Str) : Str :=
  match pyMaxBy (fun ls => (ls.map List.length).sum) (selectBlocks tds) with
  | none => []
  | some best =>
    let text := joinSpace (cleanPoemLines best title)
    let text := stripExtraInfo text
    let text := stripPrintable text
    let text := if title = [] then text else dropTitleByline title text
    collapseWs text

/-- The fallback filter as the specification states it: the primary
pass's marker and line-count exclusions with only the length threshold
lowered to 180.  This follows the claim's words, for comparison with
`fallbackBlocks`, which follows the source. -/
def claimedFallbackBlocks (tds : List Str) : List (List Str) :=
  tds.filterMap fun t =>
    if 180 ≤ t.length && !containsSub mainMenuMarker t && !containsSub sponsoredMarker t then
      let ls := nbLines t
      if 6 ≤ ls.length then some ls else none
    else none

/-- A table cell of five long lines (284 characters, no markers): long
enough for the classifier's filter, too few lines for the band builder. -/
def tdFiveLines : Str :=
  ("The sun was shining on the sea shining with all his might\n" ++
   "He did his very best to make the billows smooth and bright\n" ++
   "And this was odd because it was the middle of the night\n" ++
   "The moon was shining sulkily because she thought the sun\n" ++
   "Had got no business to be there after the day was done").data

/-- A 285-character table cell containing the marker "Main Menu" and
seven non-blank lines: excluded by the primary pass, kept by the
source's fallback pass, excluded by the claimed fallback filter. -/
def tdMainMenuFallback : Str :=
  ("Main Menu\n" ++
   "The woods are lovely dark and deep lines here\n" ++
   "But I have promises to keep and miles to go\n" ++
   "And miles to go before I sleep tonight again\n" ++
   "Whose woods these are I think I know his house\n" ++
   "His house is in the village though he will not\n" ++
   "He will not see me stopping here to watch snow").data

end Glyphica

set_option maxRecDepth 100000

namespace Glyphica

/-- C2: the text extraction used by the Difficulty Classifier does not
always return the same cleaned text as the Poem Text Extractor of
section 4.4: on a document whose single table cell has five non-blank
lines of 284 characters in total, the classifier's extractor returns the
joined text while the section-4.4 extractor returns the empty string. -/
theorem classifier_extractor_differs :
    extractPoemTextShortlist [tdFiveLines] ≠ extractPoemTextBands [tdFiveLines] [] := by
  decide

/-- C2 (amended): the classifier's extractor applies only the length and
marker filters — no minimum line count and no fallback pass — so a
single 284-character cell of five lines passes its filter but is
rejected by both passes of the section-4.4 extractor, which therefore
returns the empty string while the classifier returns the cleaned join. -/
theorem classifier_extractor_divergence :
    shortlistKeep tdFiveLines = true ∧
    primaryBlocks [tdFiveLines] = [] ∧
    fallbackBlocks [tdFiveLines] = [] ∧
    extractPoemTextBands [tdFiveLines] [] = [] ∧
    extractPoemTextShortlist [tdFiveLines] =
      ("The sun was shining on the sea shining with all his might " ++
       "He did his very best to make the billows smooth and bright " ++
       "And this was odd because it was the middle of the night " ++
       "The moon was shining sulkily because she thought the sun " ++
       "Had got no business to be there after the day was done").data := by
  decide

/-- C3: the fallback pass does not re-apply the marker exclusions: a
285-character cell containing "Main Menu" with seven non-blank lines is
kept by the source's fallback pass although the claimed filter (same
marker exclusions as the primary pass) excludes it. -/
theorem fallback_marker_counterexample :
    fallbackBlocks [tdMainMenuFallback] ≠ claimedFallbackBlocks [tdMainMenuFallback] ∧
    primaryBlocks [tdMainMenuFallback] = [] ∧
    claimedFallbackBlocks [tdMainMenuFallback] = [] ∧
    fallbackBlocks [tdMainMenuFallback] = [nbLines tdMainMenuFallback] := by
  decide

/-- C3 (amended): the fallback pass keeps exactly the table-cell blocks
whose raw text length is at least 180 and whose non-blank line count is
at least 6, with no marker exclusion. -/
theorem fallback_pass_characterization (tds : List Str) :
    fallbackBlocks tds =
      (tds.filter fun t =>
        decide (180 ≤ t.length) && decide (6 ≤ (nbLines t).length)).map nbLines := by
  induction tds with
  | nil => rfl
  | cons t tds ih =>
    simp only [fallbackBlocks, List.filterMap_cons, List.filter_cons] at *
    by_cases h1 : 180 ≤ t.length
    · by_cases h2 : 6 ≤ (nbLines t).length
      · simp [h1, h2, ih]
      · simp [h1, h2, ih]
    · simp [h1, ih]

/-! ## Difficulty banding (`shortlist_poems.load_baseline_ranges`). -/

/-- `shortlist_poems.normalize_for_difficulty`: remove every character
that is neither a word character nor whitespace, then collapse
whitespace runs and strip (`\w` restricted to ASCII here). -/
def normalizeForDifficulty (s : Str) : Str :=
  collapseWs (s.filter fun c => c.isAlphanum || c = '_' || c.isWhitespace)

/-- `shortlist_poems.score_text`: the typed-character count and the word
count of the normalized text.  The normalized text is word characters
separated by single spaces, so its `\w+` runs are its space-separated
tokens. -/
def scoreText (s : Str) : ℕ × ℕ :=
  let n := normalizeForDifficulty s
  (n.length, (wsTokens n).length)

/-- Numerator over the fixed denominator 3 of one interpolated cut point
of `statistics.quantiles(d, n=3, method="inclusive")` on sorted data `d`
(CPython: `m = len(d) - 1; j, delta = divmod(i*m, 3);
(d[j]*(3-delta) + d[j+1]*delta)/n`).  The data are integer counts, so
the cut point is exactly this numerator divided by 3; carrying the
numerator keeps the computation in ℕ. -/
def qnum3 (d : List ℕ) (i : ℕ) : ℕ :=
  let m := d.length - 1
  let j := i * m / 3
  let delta := i * m % 3
  d.getD j 0 * (3 - delta) + d.getD (j + 1) 0 * delta

/-- The two tertile cut-point numerators of
`statistics.quantiles(l, n=3, method="inclusive")`: sort, then
interpolate; `none` when there are fewer than two data points (the
library raises there). -/
def quantNums3 (l : List ℕ) : Option (ℕ × ℕ) :=
  if 2 ≤ (List.insertionSort (· ≤ ·) l).length then
    some (qnum3 (List.insertionSort (· ≤ ·) l) 1, qnum3 (List.insertionSort (· ≤ ·) l) 2)
  else none

/-- The tertile boundaries as rational values (numerator over 3). -/
def quantilesInc3 (l : List ℕ) : Option (ℚ × ℚ) :=
  (quantNums3 l).map fun p => ((p.1 : ℚ) / 3, (p.2 : ℚ) / 3)

/-- Python `int()` of the nonnegative value `n / 3`: truncation toward
zero, which on a nonnegative rational is division with floor, i.e.
natural division by 3. -/
def intOfThirds (n : ℕ) : ℤ := ((n / 3 : ℕ) : ℤ)

/-- One band's character range and word range (inclusive bounds). -/
structure BandDef where
  chars : ℤ × ℤ
  words : ℤ × ℤ
deriving DecidableEq, Repr

/-- The three bands returned by `load_baseline_ranges`. -/
structure Bands where
  easy : BandDef
  medium : BandDef
  hard : BandDef
deriving DecidableEq, Repr

/-- The banding step of `shortlist_poems.load_baseline_ranges` (lines
66-82), taking the typed-character and word-count value lists of the
baseline passages: tertile boundaries over each metric, then
easy = (min, int(q1)), medium = (int(q1)+1, int(q2)),
hard = (int(q2)+1, max + slack) with slack 80 for characters and 20 for
words. -/
def bandRangesFromValues (charValues wordValues : List ℕ) : Option Bands :=
  match quantNums3 charValues, quantNums3 wordValues with
  | some (cq1, cq2), some (wq1, wq2) =>
    let cmin : ℤ := (charValues.min?.getD 0 : ℕ)
    let cmax : ℤ := (charValues.max?.getD 0 : ℕ)
    let wmin : ℤ := (wordValues.min?.getD 0 : ℕ)
    let wmax : ℤ := (wordValues.max?.getD 0 : ℕ)
    some
      { easy := ⟨(cmin, intOfThirds cq1), (wmin, intOfThirds wq1)⟩
        medium := ⟨(intOfThirds cq1 + 1, intOfThirds cq2), (intOfThirds wq1 + 1, intOfThirds wq2)⟩
        hard := ⟨(intOfThirds cq2 + 1, cmax + 80), (intOfThirds wq2 + 1, wmax + 20)⟩ }
  | _, _ => none

/-- `shortlist_poems.load_baseline_ranges` (lines 60-82): score every
baseline passage and band over the two metric value lists. -/
def loadBaselineRanges (passages : List Str) : Option Bands :=
  let metrics := passages.map scoreText
  bandRangesFromValues (metrics.map Prod.fst) (metrics.map Prod.snd)

/-- `shortlist_poems.in_band`: both metrics lie inside the band's
ranges, bounds inclusive. -/
def inBand (typedChars wordCount : ℕ) (b : BandDef) : Prop :=
  b.chars.1 ≤ (typedChars : ℤ) ∧ (typedChars : ℤ) ≤ b.chars.2 ∧
    b.words.1 ≤ (wordCount : ℤ) ∧ (wordCount : ℤ) ≤ b.words.2

/-- The three band names, in priority order. -/
inductive BandName
  | easy
  | medium
  | hard
deriving DecidableEq, Repr

/-- The band of a given name. -/
def Bands.get (b : Bands) : BandName → BandDef
  | .easy => b.easy
  | .medium => b.medium
  | .hard => b.hard

/-- C1: on the baseline typed-character values [50,60,70,80,90,100] the
inclusive tertile boundaries are 200/3 and 250/3, not 70 and 90, and
the character ranges are not easy=[50,70], medium=(70,90],
hard=(90,180]. -/
theorem tertile_example_counterexample :
    quantNums3 [50, 60, 70, 80, 90, 100] = some (200, 250) ∧
    quantilesInc3 [50, 60, 70, 80, 90, 100] ≠ some (70, 90) ∧
    (bandRangesFromValues [50, 60, 70, 80, 90, 100] [10, 12, 14, 16, 18, 20]).map
        (fun b => (b.easy.chars, b.medium.chars, b.hard.chars)) ≠
      some ((50, 70), (71, 90), (91, 180)) := by
  have hq : quantNums3 [50, 60, 70, 80, 90, 100] = some (200, 250) := by decide
  refine ⟨hq, ?_, by decide⟩
  simp only [quantilesInc3, hq, Option.map_some', ne_eq, Option.some.injEq, Prod.mk.injEq]
  intro h
  norm_num at h

/-- C1 (amended): on typed-character values [50,60,70,80,90,100] the
inclusive tertile boundaries are q1 = 200/3 and q2 = 250/3, so after
Python int truncation the character ranges are easy = [50,66],
medium = [67,83], hard = [84,180] with the +80 hard-band slack. -/
theorem tertile_example_values :
    (bandRangesFromValues [50, 60, 70, 80, 90, 100] [10, 12, 14, 16, 18, 20]).map
        (fun b => (b.easy.chars, b.medium.chars, b.hard.chars)) =
      some ((50, 66), (67, 83), (84, 180)) := by
  decide

/-- Sorted lists are monotone under positional indexing with default. -/
theorem sorted_getD_le (d : List ℕ) (hd : List.Sorted (· ≤ ·) d) {i j : ℕ}
    (hij : i ≤ j) (hj : j < d.length) : d.getD i 0 ≤ d.getD j 0 := by
  rcases eq_or_lt_of_le hij with rfl | hlt
  · exact le_refl _
  · have h := List.Sorted.rel_get_of_lt hd
      (a := ⟨i, by omega⟩) (b := ⟨j, hj⟩) (by simpa using hlt)
    rw [List.getD_eq_getElem d 0 (show i < d.length by omega), List.getD_eq_getElem d 0 hj]
    simpa using h

/-- On sorted data with at least two points, the first tertile cut-point
numerator is at most the second. -/
theorem qnum3_le (d : List ℕ) (hd : List.Sorted (· ≤ ·) d) (h2 : 2 ≤ d.length) :
    qnum3 d 1 ≤ qnum3 d 2 := by
  unfold qnum3
  dsimp only
  set m := d.length - 1 with hm
  have hm1 : 1 ≤ m := by omega
  have hj2 : 2 * m / 3 + 1 ≤ m := by omega
  have hj1 : 1 * m / 3 + 1 ≤ m := by omega
  have hab : d.getD (1 * m / 3) 0 ≤ d.getD (1 * m / 3 + 1) 0 :=
    sorted_getD_le d hd (by omega) (by omega)
  have hce : d.getD (2 * m / 3) 0 ≤ d.getD (2 * m / 3 + 1) 0 :=
    sorted_getD_le d hd (by omega) (by omega)
  rcases Nat.lt_or_ge (1 * m / 3) (2 * m / 3) with hlt | hge
  · have hbc : d.getD (1 * m / 3 + 1) 0 ≤ d.getD (2 * m / 3) 0 :=
      sorted_getD_le d hd (by omega) (by omega)
    set a := d.getD (1 * m / 3) 0
    set b := d.getD (1 * m / 3 + 1) 0
    set c := d.getD (2 * m / 3) 0
    set e := d.getD (2 * m / 3 + 1) 0
    set d1 := 1 * m % 3 with hd1
    set d2 := 2 * m % 3 with hd2
    have hd1lt : d1 < 3 := by omega
    have hd2lt : d2 < 3 := by omega
    interval_cases d1 <;> interval_cases d2 <;> omega
  · have hj : 2 * m / 3 = 1 * m / 3 := by omega
    rw [hj]
    set a := d.getD (1 * m / 3) 0
    set b := d.getD (1 * m / 3 + 1) 0
    set d1 := 1 * m % 3 with hd1
    set d2 := 2 * m % 3 with hd2
    have hdle : d1 ≤ d2 := by omega
    have hd1lt : d1 < 3 := by omega
    have hd2lt : d2 < 3 := by omega
    interval_cases d1 <;> interval_cases d2 <;> omega

/-- The first tertile boundary numerator never exceeds the second. -/
theorem quantNums3_le (l : List ℕ) (q1 q2 : ℕ) (h : quantNums3 l = some (q1, q2)) :
    q1 ≤ q2 := by
  unfold quantNums3 at h
  split at h
  · injection h with h
    have h1 := congrArg Prod.fst h
    have h2 := congrArg Prod.snd h
    dsimp at h1 h2
    subst h1
    subst h2
    exact qnum3_le _ (List.sorted_insertionSort _ l) (by assumption)
  · exact absurd h (by simp)

/-- C10: for every baseline value set accepted by the banding step, the
three character intervals are pairwise disjoint (easy's upper bound
strictly below medium's lower bound, medium's upper bound strictly below
hard's lower bound), likewise the word intervals, and hence a
candidate's metric pair lies in the range of at most one band, making
band assignment independent of the multiple-match priority rule. -/
theorem bands_pairwise_disjoint (charValues wordValues : List ℕ) (b : Bands)
    (h : bandRangesFromValues charValues wordValues = some b) :
    (b.easy.chars.2 < b.medium.chars.1 ∧ b.medium.chars.2 < b.hard.chars.1) ∧
    (b.easy.words.2 < b.medium.words.1 ∧ b.medium.words.2 < b.hard.words.1) ∧
    ∀ tc wc n1 n2, inBand tc wc (b.get n1) → inBand tc wc (b.get n2) → n1 = n2 := by
  unfold bandRangesFromValues at h
  split at h
  case h_2 => exact absurd h (by simp)
  case h_1 cq1 cq2 wq1 wq2 hqc hqw =>
    have hc3 : intOfThirds cq1 ≤ intOfThirds cq2 := by
      have := quantNums3_le charValues cq1 cq2 hqc
      unfold intOfThirds
      exact_mod_cast Nat.div_le_div_right this
    have hw3 : intOfThirds wq1 ≤ intOfThirds wq2 := by
      have := quantNums3_le wordValues wq1 wq2 hqw
      unfold intOfThirds
      exact_mod_cast Nat.div_le_div_right this
    injection h with h
    subst h
    refine ⟨⟨by dsimp only; omega, by dsimp only; omega⟩,
      ⟨by dsimp only; omega, by dsimp only; omega⟩, ?_⟩
    intro tc wc n1 n2 h1 h2
    cases n1 <;> cases n2 <;> first
      | rfl
      | (exfalso; dsimp only [Bands.get, inBand] at h1 h2; omega)

/-- A concrete output of the banding step, used to witness the
disjointness theorem. -/
def bandsExample : Bands :=
  ⟨⟨(50, 66), (10, 13)⟩, ⟨(67, 83), (14, 16)⟩, ⟨(84, 180), (17, 40)⟩⟩

/-- C10 witness: the disjointness theorem applied to the concrete
baseline value lists [50,60,70,80,90,100] and [10,12,14,16,18,20]. -/
theorem bands_pairwise_disjoint_witness :
    bandRangesFromValues [50, 60, 70, 80, 90, 100] [10, 12, 14, 16, 18, 20] =
      some bandsExample ∧
    (bandsExample.easy.chars.2 < bandsExample.medium.chars.1 ∧
      bandsExample.medium.chars.2 < bandsExample.hard.chars.1) ∧
    (bandsExample.easy.words.2 < bandsExample.medium.words.1 ∧
      bandsExample.medium.words.2 < bandsExample.hard.words.1) :=
  ⟨by decide,
    (bands_pairwise_disjoint [50, 60, 70, 80, 90, 100] [10, 12, 14, 16, 18, 20]
      bandsExample (by decide)).1,
    (bands_pairwise_disjoint [50, 60, 70, 80, 90, 100] [10, 12, 14, 16, 18, 20]
      bandsExample (by decide)).2.1⟩

/-! ## Candidate pool loading (`shortlist_poems.load_poems`, lines 85-114)
and filtering/ordering (`shortlist_poems.main`, lines 194-195). -/

/-- One raw corpus CSV row; a missing field reads as the empty string
(`row.get(...) or ""`). -/
structure RawRow where
  title : Str
  link : Str
  lines : Str
  views : Str
deriving DecidableEq, Repr

/-- One parsed pool entry. -/
structure PoemRow where
  title : Str
  link : Str
  lines : ℕ
  views : ℕ
deriving DecidableEq, Repr

/-- The row filter of `load_poems`: non-empty stripped title and link,
title not starting with "Sponsored Links", and a digit-only line count. -/
def validRaw (r : RawRow) : Bool :=
  let t := strip r.title
  let l := strip r.link
  !(t.isEmpty || l.isEmpty || strStarts sponsoredMarker t) && pyIsDigit (strip r.lines)

/-- Conversion of a kept raw row (`int(lines_raw)`, and `int(views_raw)
if views_raw.isdigit() else 0`). -/
def toRow (r : RawRow) : PoemRow :=
  { title := strip r.title
    link := strip r.link
    lines := digitsToNat (strip r.lines)
    views := if pyIsDigit (strip r.views) then digitsToNat (strip r.views) else 0 }

/-- The reader loop of `load_poems`, carrying the `seen_links` set. -/
def loadPoemsAux : List RawRow → List Str → List PoemRow
  | [], _ => []
  | r :: rest, seen =>
    if validRaw r then
      if strip r.link ∈ seen then loadPoemsAux rest seen
      else toRow r :: loadPoemsAux rest (strip r.link :: seen)
    else loadPoemsAux rest seen

/-- `shortlist_poems.load_poems`. -/
def loadPoems (rows : List RawRow) : List PoemRow := loadPoemsAux rows []

/-- Keep the first row bearing each link (the claim-side description of
the deduplication, as a fold over already-converted rows). -/
def dedupeAux : List PoemRow → List Str → List PoemRow
  | [], _ => []
  | r :: rest, seen =>
    if r.link ∈ seen then dedupeAux rest seen
    else r :: dedupeAux rest (r.link :: seen)

/-- First-occurrence deduplication by link. -/
def dedupeFirstByLink (rows : List PoemRow) : List PoemRow := dedupeAux rows []

theorem loadPoemsAux_eq (rows : List RawRow) :
    ∀ seen, loadPoemsAux rows seen = dedupeAux ((rows.filter validRaw).map toRow) seen := by
  induction rows with
  | nil => intro seen; rfl
  | cons r rest ih =>
    intro seen
    by_cases hv : validRaw r
    · simp only [loadPoemsAux, hv, if_true, List.filter_cons_of_pos hv, List.map_cons, dedupeAux]
      have hl : (toRow r).link = strip r.link := rfl
      rw [hl]
      by_cases hs : strip r.link ∈ seen
      · simp [hs, ih]
      · simp [hs, ih]
    · simp only [loadPoemsAux, hv, if_false, Bool.false_eq_true,
        List.filter_cons_of_neg (by simpa using hv)]
      exact ih seen

theorem dedupeAux_nodup (rows : List PoemRow) :
    ∀ seen, ((dedupeAux rows seen).map PoemRow.link).Nodup ∧
      ∀ x ∈ (dedupeAux rows seen).map PoemRow.link, x ∉ seen := by
  induction rows with
  | nil => intro seen; simp [dedupeAux]
  | cons r rest ih =>
    intro seen
    by_cases hs : r.link ∈ seen
    · simpa [dedupeAux, hs] using ih seen
    · have h := ih (r.link :: seen)
      simp only [dedupeAux, hs, if_false, List.map_cons, List.nodup_cons]
      refine ⟨⟨fun hmem => ?_, h.1⟩, ?_⟩
      · exact absurd (List.mem_cons_self r.link seen) (h.2 _ hmem)
      · intro x hx
        rcases List.mem_cons.mp hx with rfl | hx'
        · exact hs
        · intro hxs
          exact h.2 x hx' (List.mem_cons_of_mem _ hxs)

/-- C9: the loaded pool never carries two entries with the same link —
the pool equals the valid rows (non-empty title and link, no
"Sponsored Links" title, digit-only line count), converted, with only
the first row bearing each link kept, and its link list has no
duplicates. -/
theorem pool_links_nodup (rows : List RawRow) :
    ((loadPoems rows).map PoemRow.link).Nodup ∧
      loadPoems rows = dedupeFirstByLink ((rows.filter validRaw).map toRow) := by
  constructor
  · exact ((loadPoemsAux_eq rows []) ▸ (dedupeAux_nodup ((rows.filter validRaw).map toRow) [])).1
  · exact loadPoemsAux_eq rows []

/-- The line-count filter of the candidate pool: line count in [8, 60]. -/
def inLineRange (r : PoemRow) : Bool := 8 ≤ r.lines && r.lines ≤ 60

/-- The order realized by the source's
`sort(key=lambda row: (int(row["views"]), -int(row["lines"])),
reverse=True)`: descending on the key pair (views, -lines), i.e. view
count descending with ties broken by line count ascending. -/
def poolOrder (a b : PoemRow) : Prop :=
  b.views < a.views ∨ (a.views = b.views ∧ a.lines ≤ b.lines)

instance : DecidableRel poolOrder := fun a b =>
  inferInstanceAs (Decidable (b.views < a.views ∨ (a.views = b.views ∧ a.lines ≤ b.lines)))

instance : IsTotal PoemRow poolOrder :=
  ⟨by intro a b; unfold poolOrder; omega⟩

instance : IsTrans PoemRow poolOrder :=
  ⟨by intro a b c; unfold poolOrder; omega⟩

/-- The candidate pool of `shortlist_poems.main` (lines 194-195): filter
to line count in [8, 60], then sort.  Python's `list.sort` is stable and
`insertionSort` over the total preorder `poolOrder` is the stable sort
by that key. -/
def roughPool (rows : List RawRow) : List PoemRow :=
  List.insertionSort poolOrder ((loadPoems rows).filter inLineRange)

/-- The ordering claim C4 asserts: view count descending with ties
broken by line count descending.  This follows the claim's words, for
comparison with `poolOrder`, which follows the source. -/
def claimedPoolOrder (a b : PoemRow) : Prop :=
  b.views < a.views ∨ (a.views = b.views ∧ b.lines ≤ a.lines)

instance : DecidableRel claimedPoolOrder := fun a b =>
  inferInstanceAs (Decidable (b.views < a.views ∨ (a.views = b.views ∧ b.lines ≤ a.lines)))

/-- A valid 10-line corpus row with 5 views. -/
def rawPoemTen : RawRow := ⟨"A".data, "l1".data, "10".data, "5".data⟩

/-- A valid 50-line corpus row with 5 views. -/
def rawPoemFifty : RawRow := ⟨"B".data, "l2".data, "50".data, "5".data⟩

/-- C4: the candidate pool is not ordered with ties broken by line
count descending: two poems with equal view counts and line counts 10
and 50 end up with the 10-line poem first (line count ascending), so
the pool violates the claimed tie-break order. -/
theorem pool_tiebreak_counterexample :
    roughPool [rawPoemTen, rawPoemFifty] =
      [⟨"A".data, "l1".data, 10, 5⟩, ⟨"B".data, "l2".data, 50, 5⟩] ∧
    ¬ List.Sorted claimedPoolOrder (roughPool [rawPoemTen, rawPoemFifty]) := by
  decide

/-- C4 (amended): the candidate pool contains exactly the loaded poems
with line count in [8, 60] (as a permutation of the filtered list) and
is ordered by view count descending with ties broken by line count
ascending. -/
theorem pool_filter_sort_characterization (rows : List RawRow) :
    List.Perm (roughPool rows) ((loadPoems rows).filter inLineRange) ∧
      List.Sorted poolOrder (roughPool rows) :=
  ⟨List.perm_insertionSort poolOrder ((loadPoems rows).filter inLineRange),
    List.sorted_insertionSort poolOrder ((loadPoems rows).filter inLineRange)⟩

/-! ## Fetch Engine backoff (`scrape_poems.compute_backoff_seconds`,
lines 155-167).  Durations are exact rationals; the uniform jitter draw
is passed as an explicit argument. -/

/-- `scrape_poems.compute_backoff_seconds`: a valid parsed retry-delay
header value is used (clamped below at 0); otherwise exponential backoff
capped at 60 plus the jitter draw.  `retryAfter` is the parsed value of
the header when present and parseable, `none` otherwise. -/
def computeBackoffSeconds (retryAfter : Option ℚ) (attempt : ℕ) (baseDelay jitter : ℚ) : ℚ :=
  match retryAfter with
  | some r => max r 0
  | none => min 60 (baseDelay * 2 ^ (attempt - 1)) + jitter

/-- C6: with no valid retry-delay header, for every attempt n ≥ 1 and
base delay b, if the jitter draw lies in [0, 0.5*b + 0.1] then the
computed wait lies in [min(60, b*2^(n-1)), min(60, b*2^(n-1)) + 0.5*b + 0.1]. -/
theorem backoff_bounds (n : ℕ) (b j : ℚ) (hn : 1 ≤ n) (hj0 : 0 ≤ j)
    (hj1 : j ≤ 1 / 2 * b + 1 / 10) :
    min 60 (b * 2 ^ (n - 1)) ≤ computeBackoffSeconds none n b j ∧
      computeBackoffSeconds none n b j ≤ min 60 (b * 2 ^ (n - 1)) + (1 / 2 * b + 1 / 10) := by
  have h : computeBackoffSeconds none n b j = min 60 (b * 2 ^ (n - 1)) + j := rfl
  rw [h]
  constructor <;> linarith

/-- C6 witness: the backoff bounds at attempt 1, base delay 1, jitter 0. -/
theorem backoff_bounds_witness :
    min 60 ((1 : ℚ) * 2 ^ (1 - 1)) ≤ computeBackoffSeconds none 1 1 0 ∧
      computeBackoffSeconds none 1 1 0 ≤ min 60 ((1 : ℚ) * 2 ^ (1 - 1)) + (1 / 2 * 1 + 1 / 10) :=
  backoff_bounds 1 1 0 (le_refl 1) (le_refl 0) (by norm_num)

/-! ## Content Cache (`3-build_band_mods.fetch_html_cached`, lines
105-120; `shortlist_poems.fetch_candidate_text_cached` is the same
store-then-extract logic).  The cache is the association of URL to
stored document; the source keys entries by the SHA-256 digest of the
URL, which the spec takes as collision-free on the corpus's URLs, so the
key is modelled by the URL itself.  The network is a deterministic
oracle `net`; the result carries the returned content, the new cache
state, and the number of network requests issued. -/

/-- `fetch_html_cached`: on a hit return the stored content with no
network call; on a miss fetch, and only on success write the entry. -/
def fetchHtmlCached (net : Str → Option Str) (cache : List (Str × Str)) (url : Str) :
    Option Str × List (Str × Str) × ℕ :=
  match cache.lookup url with
  | some html => (some html, cache, 0)
  | none =>
    match net url with
    | some html => (some html, (url, html) :: cache, 1)
    | none => (none, cache, 1)

/-- C7: starting from a cache without the URL, when the fetch succeeds,
two consecutive cached fetches issue exactly one network request in
total (all of it in the first call, none in the second), both return the
same stored content; and a failed fetch never creates a cache entry. -/
theorem cached_fetch_idempotent (net : Str → Option Str) (cache : List (Str × Str))
    (url content : Str) (hmiss : cache.lookup url = none) (hnet : net url = some content) :
    (fetchHtmlCached net cache url).1 = some content ∧
    (fetchHtmlCached net (fetchHtmlCached net cache url).2.1 url).1 = some content ∧
    (fetchHtmlCached net cache url).2.2 = 1 ∧
    (fetchHtmlCached net (fetchHtmlCached net cache url).2.1 url).2.2 = 0 ∧
    (fetchHtmlCached net cache url).2.2 +
      (fetchHtmlCached net (fetchHtmlCached net cache url).2.1 url).2.2 = 1 ∧
    (∀ (net2 : Str → Option Str) (cache2 : List (Str × Str)) (url2 : Str),
      net2 url2 = none → (fetchHtmlCached net2 cache2 url2).2.1 = cache2) := by
  refine ⟨?_, ?_, ?_, ?_, ?_, ?_⟩
  · simp [fetchHtmlCached, hmiss, hnet]
  · simp [fetchHtmlCached, hmiss, hnet, List.lookup]
  · simp [fetchHtmlCached, hmiss, hnet]
  · simp [fetchHtmlCached, hmiss, hnet, List.lookup]
  · simp [fetchHtmlCached, hmiss, hnet, List.lookup]
  · intro net2 cache2 url2 hfail
    unfold fetchHtmlCached
    cases hl : cache2.lookup url2 <;> simp [hl, hfail]

/-- A one-document network oracle used to witness the cache theorem. -/
def netExample : Str → Option Str :=
  fun u => if u = "poem-url".data then some "poem-html".data else none

/-- C7 witness: the cache theorem at the concrete oracle, empty cache
and cached URL. -/
theorem cached_fetch_idempotent_witness :
    (fetchHtmlCached netExample [] "poem-url".data).1 = some "poem-html".data ∧
    (fetchHtmlCached netExample
        (fetchHtmlCached netExample [] "poem-url".data).2.1 "poem-url".data).1 =
      some "poem-html".data ∧
    (fetchHtmlCached netExample [] "poem-url".data).2.2 = 1 ∧
    (fetchHtmlCached netExample
        (fetchHtmlCached netExample [] "poem-url".data).2.1 "poem-url".data).2.2 = 0 ∧
    (fetchHtmlCached netExample [] "poem-url".data).2.2 +
      (fetchHtmlCached netExample
        (fetchHtmlCached netExample [] "poem-url".data).2.1 "poem-url".data).2.2 = 1 ∧
    (∀ (net2 : Str → Option Str) (cache2 : List (Str × Str)) (url2 : Str),
      net2 url2 = none → (fetchHtmlCached net2 cache2 url2).2.1 = cache2) :=
  cached_fetch_idempotent netExample [] "poem-url".data "poem-html".data rfl (by decide)

/-! ## Harvest Orchestrator page loop (`scrape_poems.main`, lines
266-299).  One loop iteration fetches the page, parses and appends its
rows, saves the checkpoint, logs, and then — whenever `delay > 0` —
sleeps; the trace records these effects in order. -/

/-- An observable effect of the page loop. -/
inductive HarvestEvent where
  | fetch (page : ℕ)
  | append (page : ℕ)
  | checkpoint (nextPage : ℕ)
  | sleep
deriving DecidableEq, Repr

/-- The effects of the loop body for `page`: fetch, append, checkpoint
`page + 1`, then the rate-limiting sleep.  The source guards the sleep
only by `args.delay > 0` (lines 298-299); there is no final-page
exception. -/
def pageEvents (delay : ℚ) (page : ℕ) : List HarvestEvent :=
  [.fetch page, .append page, .checkpoint (page + 1)] ++
    (if 0 < delay then [.sleep] else [])

/-- The effect trace of the page loop over `[startPage, endPage]`
(`for page in range(start_page, args.end_page + 1)`). -/
def harvestTrace (startPage endPage : ℕ) (delay : ℚ) : List HarvestEvent :=
  ((List.range' startPage (endPage + 1 - startPage)).map (pageEvents delay)).flatten

/-- Number of sleep events in a trace. -/
def sleepCount : List HarvestEvent → ℕ
  | [] => 0
  | .sleep :: t => sleepCount t + 1
  | .fetch _ :: t => sleepCount t
  | .append _ :: t => sleepCount t
  | .checkpoint _ :: t => sleepCount t

theorem sleepCount_append (a b : List HarvestEvent) :
    sleepCount (a ++ b) = sleepCount a + sleepCount b := by
  induction a with
  | nil => simp [sleepCount]
  | cons e t ih => cases e <;> simp [sleepCount, ih] <;> omega

theorem harvest_trace_sleeps (n : ℕ) (d : ℚ) (hd : 0 < d) :
    ∀ s, sleepCount (((List.range' s n).map (pageEvents d)).flatten) = n ∧
      (n = 0 ∨
        (((List.range' s n).map (pageEvents d)).flatten).getLast? = some HarvestEvent.sleep) := by
  induction n with
  | zero => intro s; exact ⟨rfl, Or.inl rfl⟩
  | succ n ih =>
    intro s
    rw [List.range'_succ, List.map_cons, List.flatten_cons]
    obtain ⟨ihc, ihl⟩ := ih (s + 1)
    constructor
    · rw [sleepCount_append, ihc]
      have h1 : sleepCount (pageEvents d s) = 1 := by
        simp [pageEvents, hd, sleepCount]
      omega
    · right
      rcases Nat.eq_zero_or_pos n with rfl | hn
      · simp [pageEvents, hd]
      · have hne : (((List.range' (s + 1) n).map (pageEvents d)).flatten) ≠ [] := by
          intro h0
          rw [h0] at ihc
          simp [sleepCount] at ihc
          omega
        rw [List.getLast?_append_of_ne_nil _ hne]
        rcases ihl with h0 | hl
        · omega
        · exact hl

/-- C5: the rate-limiting sleep is not skipped after the final page: a
one-page run with delay 1 produces a trace whose last event, after the
final page's append and checkpoint, is a sleep — one sleep where the
claim allows none. -/
theorem final_page_sleep_counterexample :
    harvestTrace 1 1 1 =
      [HarvestEvent.fetch 1, HarvestEvent.append 1, HarvestEvent.checkpoint 2,
        HarvestEvent.sleep] ∧
    (harvestTrace 1 1 1).getLast? = some HarvestEvent.sleep ∧
    sleepCount (harvestTrace 1 1 1) = 1 := by
  decide

/-- C5 (amended): whenever the delay is positive, the sleep occurs after
every page including the final one — a run over [start, end] performs
end + 1 - start sleeps and its trace ends with a sleep. -/
theorem sleep_after_every_page (s e : ℕ) (d : ℚ) (hse : s ≤ e) (hd : 0 < d) :
    sleepCount (harvestTrace s e d) = e + 1 - s ∧
      (harvestTrace s e d).getLast? = some HarvestEvent.sleep := by
  unfold harvestTrace
  obtain ⟨h1, h2⟩ := harvest_trace_sleeps (e + 1 - s) d hd s
  refine ⟨h1, ?_⟩
  rcases h2 with h0 | hl
  · omega
  · exact hl

/-- C5 witness: the amended sleep theorem for the two-page run 1..2 with
delay 1. -/
theorem sleep_after_every_page_witness :
    sleepCount (harvestTrace 1 2 1) = 2 + 1 - 1 ∧
      (harvestTrace 1 2 1).getLast? = some HarvestEvent.sleep :=
  sleep_after_every_page 1 2 1 (by norm_num) (by norm_num)

/-! ## Checkpoint Manager and resume policy (`scrape_poems.load_checkpoint`,
lines 82-92, and `scrape_poems.main`, lines 248-253).  The checkpoint
file is modelled by what reading it yields: `none` when it is absent or
unreadable, `some none` when it parses but holds no integer `next_page`
field, `some (some v)` when it holds the integer `v`. -/

/-- `scrape_poems.load_checkpoint`: a page number only when the
persisted value is an integer at least 1; every failure yields no
checkpoint. -/
def loadCheckpoint (file : Option (Option ℤ)) : Option ℤ :=
  match file with
  | some (some v) => if 1 ≤ v then some v else none
  | _ => none

/-- The resume resolution of `scrape_poems.main` (lines 248-253). -/
def effectiveStartPage (resume : Bool) (file : Option (Option ℤ)) (startArg : ℤ) : ℤ :=
  if resume then
    match loadCheckpoint file with
    | some cp => max startArg cp
    | none => startArg
  else startArg

/-- C8: with resume enabled and a checkpoint that loads successfully the
effective start page is the maximum of the explicit start page and the
checkpoint; with resume disabled, or an absent or unreadable or invalid
checkpoint, it is the explicit start page; and the checkpoint loads
exactly the persisted integers that are at least 1. -/
theorem resume_start_page (resume : Bool) (file : Option (Option ℤ)) (startArg cp : ℤ) :
    (resume = true → loadCheckpoint file = some cp →
      effectiveStartPage resume file startArg = max startArg cp) ∧
    (resume = false ∨ loadCheckpoint file = none →
      effectiveStartPage resume file startArg = startArg) ∧
    (∀ v : ℤ, loadCheckpoint (some (some v)) = if 1 ≤ v then some v else none) ∧
    loadCheckpoint none = none ∧ loadCheckpoint (some none) = none := by
  refine ⟨?_, ?_, fun v => rfl, rfl, rfl⟩
  · intro hr hl
    subst hr
    simp [effectiveStartPage, hl]
  · intro h
    rcases h with hr | hl
    · subst hr; rfl
    · cases hr : resume
      · rfl
      · simp [effectiveStartPage, hl]

/-- C8 witness: the resume theorem at resume enabled, a checkpoint file
holding 7, and explicit start page 3. -/
theorem resume_start_page_witness :
    (true = true → loadCheckpoint (some (some 7)) = some 7 →
      effectiveStartPage true (some (some 7)) 3 = max 3 7) ∧
    (true = false ∨ loadCheckpoint (some (some 7)) = none →
      effectiveStartPage true (some (some 7)) 3 = 3) ∧
    (∀ v : ℤ, loadCheckpoint (some (some v)) = if 1 ≤ v then some v else none) ∧
    loadCheckpoint none = none ∧ loadCheckpoint (some none) = none :=
  resume_start_page true (some (some 7)) 3 7

end Glyphica
